import Mathlib

/-!
Shallow embedding of the repository's two classes:

* `WebAPI` (src/my_internet_resource.py): stores one HTTP response and
  exposes `data_import`, which returns parsed JSON on status 200 and
  otherwise logs the status code and reason.
* `MyPreprocessor` (src/my_preprocessor.py): holds one pandas data frame
  `my_df` and a row counter `my_df_rows`, with operations `create_df`,
  `save_df`, `drop_cols`, `rename_cols`, `drop_rows`, `recode`.

Python/pandas behavior is modelled explicitly: argument presence is
decided by truthiness (`False`, `{}`, `""`, `[]` are all falsy, so an
absent keyword and an empty value are the same thing, exactly as the
source's `if not dictionary and not path` tests see them); pandas cell
values are a sum of integers, strings and the missing value NaN; a data
frame is a list of column labels, a list of row labels and a list of
rows.
-/

set_option autoImplicit false

namespace MyProjects

/-- A pandas cell value: an integer, a string, or the missing value NaN.
NaN compares equal to itself here, matching how `drop_duplicates` and
`dropna` group missing values. -/
inductive Val where
  | i : Int → Val
  | s : String → Val
  | na : Val
deriving DecidableEq, Repr

/-- A pandas `DataFrame`: column labels, row labels (the index) and the
rows of cell values. Fresh frames built by this code always carry a
`RangeIndex` 0,1,2,…, modelled as integer row labels. -/
structure DataFrame where
  cols : List String
  index : List Int
  rows : List (List Val)
deriving DecidableEq, Repr

/-- The empty data frame `pd.DataFrame()`. -/
def emptyDF : DataFrame := ⟨[], [], []⟩

/-- `pd.unique` / `drop_duplicates(keep="first")`: the distinct elements
of a list in first-encounter order — the head first, then the distinct
elements of the tail with the head's value removed. -/
def pdUnique {α : Type} [DecidableEq α] : List α → List α
  | [] => []
  | v :: vs => v :: (pdUnique vs).filter (fun w => w ≠ v)

theorem mem_pdUnique {α : Type} [DecidableEq α] (l : List α) (x : α) :
    x ∈ pdUnique l ↔ x ∈ l := by
  induction l with
  | nil => simp [pdUnique]
  | cons v vs ih =>
    simp only [pdUnique, List.mem_cons, List.mem_filter, ih, decide_eq_true_eq]
    constructor
    · rintro (rfl | ⟨hmem, _⟩)
      · exact Or.inl rfl
      · exact Or.inr hmem
    · rintro (rfl | hmem)
      · exact Or.inl rfl
      · by_cases hx : x = v
        · exact Or.inl hx
        · exact Or.inr ⟨hmem, hx⟩

theorem nodup_pdUnique {α : Type} [DecidableEq α] (l : List α) :
    (pdUnique l).Nodup := by
  induction l with
  | nil => simp [pdUnique]
  | cons v vs ih =>
    refine List.nodup_cons.2 ⟨?_, ih.filter _⟩
    intro hv
    have := (List.mem_filter.1 hv).2
    simp at this

theorem pdUnique_sublist {α : Type} [DecidableEq α] (l : List α) :
    (pdUnique l).Sublist l := by
  induction l with
  | nil => simp [pdUnique]
  | cons v vs ih =>
    exact List.Sublist.cons₂ v (((pdUnique vs).filter_sublist).trans ih)

/-- `pdUnique l` lists distinct values ordered by the position of their
first occurrence in `l` (`findIdx (fun x => x = a)` is the position of
the first occurrence of `a`). -/
theorem pdUnique_pairwise {α : Type} [DecidableEq α] (l : List α) :
    (pdUnique l).Pairwise
      (fun a b => l.findIdx (fun x => x = a) < l.findIdx (fun x => x = b)) := by
  induction l with
  | nil => simp [pdUnique]
  | cons v vs ih =>
    refine List.Pairwise.cons ?_ ?_
    · intro b hb
      have hbne : v ≠ b := by
        have := (List.mem_filter.1 hb).2
        simp only [decide_eq_true_eq] at this
        exact fun h => this h.symm
      simp [List.findIdx_cons, hbne]
    · have hfil : ((pdUnique vs).filter (fun w => w ≠ v)).Pairwise
          (fun a b => vs.findIdx (fun x => x = a) < vs.findIdx (fun x => x = b)) :=
        List.Pairwise.sublist ((pdUnique vs).filter_sublist) ih
      refine hfil.imp_of_mem ?_
      intro a b ha hb hlt
      have hane : v ≠ a := by
        have := (List.mem_filter.1 ha).2
        simp only [decide_eq_true_eq] at this
        exact fun h => this h.symm
      have hbne : v ≠ b := by
        have := (List.mem_filter.1 hb).2
        simp only [decide_eq_true_eq] at this
        exact fun h => this h.symm
      simp [List.findIdx_cons, hane, hbne]
      omega

/-! ## The Resource Fetcher (src/my_internet_resource.py) -/

/-- A JSON value, the result of parsing a response body. -/
inductive Json where
  | null : Json
  | bool : Bool → Json
  | num : Int → Json
  | str : String → Json
  | arr : List Json → Json
  | obj : List (String × Json) → Json
deriving Repr

/-- Models `requests.Response` as stored in `WebAPI.my_data` at
construction: the HTTP status code, the reason phrase, and the outcome
of calling `.json()` on the body — `some j` when the body parses as
JSON `j`, `none` when parsing would raise `JSONDecodeError`. -/
structure Response where
  status_code : Nat
  reason : String
  jsonResult : Option Json

/-- A Python exception raised inside `data_import`: `exc` for the bare
`raise Exception` on a non-200 status, `jsonDecode` for the
`JSONDecodeError` that `Response.json()` raises on an unparsable
body. -/
inductive PyExc where
  | exc
  | jsonDecode
deriving DecidableEq, Repr

/-- Every Python exception raised in `data_import`'s `try` block is an
instance of `Exception`: `raise Exception` trivially, and
`JSONDecodeError` via `JSONDecodeError <: ValueError <: Exception`. The
source's `except Exception:` clause therefore matches both. -/
def isInstanceOfException : PyExc → Bool
  | _ => true

/-- An error-severity log line emitted by `data_import`'s handler. -/
inductive ApiLog where
  | statusCode : Nat → ApiLog
  | reasonPhrase : String → ApiLog
deriving Repr

/-- The `try:` block of `WebAPI.data_import` (lines 36-46): raise
`Exception` when the stored status code differs from 200, otherwise
return `self.my_data.json()`, which itself raises on an unparsable
body. -/
def tryBlock (r : Response) : Except PyExc Json :=
  if r.status_code ≠ 200 then Except.error PyExc.exc
  else match r.jsonResult with
    | some j => Except.ok j
    | none => Except.error PyExc.jsonDecode

/-- `WebAPI.data_import`: run the `try` block; any exception the
`except Exception:` clause matches is swallowed after logging the
stored response's status code and reason phrase as errors, and the
method then returns `None`. `Except.ok (v, logs)` is a normal return of
`v` with error log lines `logs`; `Except.error e` is an exception
propagating to the caller. -/
def data_import (r : Response) : Except PyExc (Option Json × List ApiLog) :=
  match tryBlock r with
  | Except.ok j => Except.ok (some j, [])
  | Except.error e =>
      if isInstanceOfException e then
        Except.ok (none, [ApiLog.statusCode r.status_code,
                          ApiLog.reasonPhrase r.reason])
      else Except.error e

/-! ## The Tabular Preprocessor (src/my_preprocessor.py) -/

/-- Log events of `MyPreprocessor` observable by the claims: the
error-severity lines, the logged dropped-rows deltas of `drop_rows`,
and a marker for an exception escaping a method (a missing file makes
`pd.read_csv`/`pd.read_excel` raise; nothing in `my_preprocessor.py`
catches exceptions). -/
inductive PLog where
  | errNoImportScheme
  | errTooManyImportSchemes
  | errBadExtension (ext : String)
  | errColNonexistent (c : String)
  | errRowNonexistent (l : Int)
  | errNoRecodeScheme
  | errTooManyRecodeSchemes
  | errValNonexistent (v : Val)
  | infoDroppedRows (n : Int)
  | raisedFileNotFound (p : String)
deriving DecidableEq, Repr

/-- The instance state of `MyPreprocessor`: the data frame `my_df` and
the stored row counter `my_df_rows` (a Python int, so modelled as an
unbounded integer). -/
structure PState where
  my_df : DataFrame
  my_df_rows : Int
deriving DecidableEq, Repr

/-- `MyPreprocessor.__init__` (lines 35-39): an empty frame, and
`my_df_rows = my_df.shape[0] = 0`. -/
def init : PState := ⟨emptyDF, 0⟩

/-- A fresh RangeIndex 0,1,…,n-1, as pandas assigns to newly built
frames and under `ignore_index=True`. -/
def rangeIndex (n : Nat) : List Int := (List.range n).map Int.ofNat

/-- `pd.DataFrame.from_dict`: dict keys (in insertion order) become
column labels, the k-th value list becomes column k, rows are labelled
0,1,2,…. Defined for equal-length value lists (pandas raises
otherwise); shorter lists are padded with NaN only to keep the function
total. -/
def fromDict (d : List (String × List Val)) : DataFrame :=
  let n := (d.map (fun kv => kv.2.length)).foldr max 0
  ⟨d.map (fun kv => kv.1),
   rangeIndex n,
   (List.range n).map (fun j => d.map (fun kv => kv.2.getD j Val.na))⟩

/-- `self.my_df[c]`: the values of the column labelled `c` (first
matching label), empty when no column is labelled `c`. -/
def DataFrame.colValues (df : DataFrame) (c : String) : List Val :=
  match df.cols.findIdx? (fun x => x = c) with
  | some i => df.rows.map (fun r => r.getD i Val.na)
  | none => []

/-- Apply a replacement dict to one cell as `DataFrame.replace` does: a
value that is a key of the dict becomes its mapped value, any other
value is unchanged. -/
def lookupVal (m : List (Val × Val)) (v : Val) : Val :=
  match m.find? (fun kv => kv.1 = v) with
  | some kv => kv.2
  | none => v

/-- `self.my_df.replace(to_replace={c: m}, inplace=True)`: replace the
cell values of column `c` according to dict `m`, simultaneously per
cell (pandas dict replacement is not chained). Other columns are
untouched. -/
def DataFrame.replaceCol (df : DataFrame) (c : String) (m : List (Val × Val)) : DataFrame :=
  match df.cols.findIdx? (fun x => x = c) with
  | some i =>
      { df with rows := df.rows.map (fun r =>
          r.mapIdx (fun j v => if j = i then lookupVal m v else v)) }
  | none => df

/-- `path.rsplit(".")[-1]`: the characters after the last dot, or the
whole string when it contains no dot (Python's `rsplit(".")` with no
maxsplit splits at every dot and `[-1]` takes the final piece). The
fold keeps the current piece and resets it at each dot. -/
def fileExtension (path : String) : String :=
  (path.toList.foldl (fun acc ch => if ch = '.' then [] else acc ++ [ch]) []).asString

/-- A saved table file at the level of detail the claims need: a header
row and the data records, each a list of cell strings. `to_csv` /
`to_excel` and `read_csv` / `read_excel` are modelled over this shared
structure, since in both formats pandas persists the index as a leading
unnamed column. -/
structure CsvFile where
  header : List String
  records : List (List String)
deriving DecidableEq, Repr

/-- How `to_csv` renders one cell: integers in decimal, strings
verbatim, NaN as an empty field. -/
def valToCell : Val → String
  | Val.i n => toString n
  | Val.s s => s
  | Val.na => ""

/-- `DataFrame.to_csv` with default arguments: the header row is an
empty label for the index followed by the column labels; each record is
the row label followed by the row's rendered cells. -/
def DataFrame.to_csv (df : DataFrame) : CsvFile :=
  ⟨"" :: df.cols,
   (df.index.zip df.rows).map (fun p => toString p.1 :: p.2.map valToCell)⟩

/-- `DataFrame.to_excel`, modelled over the same structured file:
spreadsheet persistence also writes the index as a leading unnamed
column. -/
def DataFrame.to_excel (df : DataFrame) : CsvFile := df.to_csv

/-- Decimal digit accumulation over the characters of a CSV field;
`none` when the field is empty or holds a non-digit. -/
def digitsToNat? (cs : List Char) : Option Nat :=
  match cs with
  | [] => none
  | _ => cs.foldl
      (fun acc ch =>
        match acc with
        | none => none
        | some n => if ch.isDigit then some (n * 10 + (ch.toNat - '0'.toNat)) else none)
      (some 0)

/-- Integer parsing of a CSV field, as pandas' type inference reads a
numeric cell: an optional leading minus sign followed by digits. -/
def parseIntCell (cs : List Char) : Option Int :=
  match cs with
  | '-' :: rest => (digitsToNat? rest).map (fun n => -(n : Int))
  | _ => (digitsToNat? cs).map (fun n => (n : Int))

/-- How `read_csv` interprets one cell: an empty field is NaN, a field
that parses as an integer is numeric, anything else is a string.
(pandas infers types per column; per-cell inference agrees with it on
the homogeneous columns this program round-trips.) -/
def cellToVal (s : String) : Val :=
  if s = "" then Val.na
  else match parseIntCell s.toList with
    | some n => Val.i n
    | none => Val.s s

/-- `pd.read_csv` on a file in the format above: an empty header field
at position k is named "Unnamed: k" (so a persisted index arrives as an
extra column "Unnamed: 0"), cells are parsed by `cellToVal`, and a
fresh RangeIndex 0,1,2,… is assigned. -/
def read_csv (f : CsvFile) : DataFrame :=
  ⟨f.header.mapIdx (fun k h => if h = "" then "Unnamed: " ++ toString k else h),
   rangeIndex f.records.length,
   f.records.map (fun r => r.map cellToVal)⟩

/-- `pd.read_excel`, modelled like `read_csv` over the shared
structured file. -/
def read_excel (f : CsvFile) : DataFrame := read_csv f

/-- The file system seen by `save_df`/`create_df`: a mapping from path
to saved file. -/
abbrev FS := List (String × CsvFile)

/-- Write (or overwrite) the file at `path`. -/
def fsWrite (fs : FS) (path : String) (f : CsvFile) : FS :=
  (path, f) :: fs.filter (fun e => e.1 ≠ path)

/-- Read the file at `path`, if present. -/
def fsRead (fs : FS) (path : String) : Option CsvFile :=
  (fs.find? (fun e => e.1 = path)).map (fun e => e.2)

/-- `MyPreprocessor.create_df` (lines 42-92). Argument presence is
decided by the source's truthiness tests: `dictionary` defaults to
`False` and an empty dict is equally falsy, so absence is modelled as
`[]`; `path` defaults to `False` and the empty string is falsy, so
absence is modelled as `""`. Returns the new state and the log events;
a missing file (where `pd.read_csv`/`pd.read_excel` raise an uncaught
exception) is marked with a `raisedFileNotFound` event. -/
def create_df (st : PState) (dictionary : List (String × List Val)) (path : String) (fs : FS) : PState × List PLog :=
  if dictionary = [] ∧ path = "" then (st, [PLog.errNoImportScheme])
  else if dictionary ≠ [] ∧ path ≠ "" then (st, [PLog.errTooManyImportSchemes])
  else
    let st1 := if dictionary ≠ [] then { st with my_df := fromDict dictionary } else st
    if path ≠ "" then
      let ext := fileExtension path
      if ext = "csv" then
        match fsRead fs path with
        | some f => ({ st1 with my_df := read_csv f }, [])
        | none => (st1, [PLog.raisedFileNotFound path])
      else if ext = "xlsx" then
        match fsRead fs path with
        | some f => ({ st1 with my_df := read_excel f }, [])
        | none => (st1, [PLog.raisedFileNotFound path])
      else (st1, [PLog.errBadExtension ext])
    else (st1, [])

/-- `MyPreprocessor.save_df` (lines 95-125): dispatch on the path's
extension and write the table; an unsupported extension logs an error
and writes nothing. The instance state is returned unchanged — the
method never assigns `my_df` or `my_df_rows`. -/
def save_df (st : PState) (path : String) (fs : FS) : PState × FS × List PLog :=
  let ext := fileExtension path
  if ext = "csv" then (st, fsWrite fs path st.my_df.to_csv, [])
  else if ext = "xlsx" then (st, fsWrite fs path st.my_df.to_excel, [])
  else (st, fs, [PLog.errBadExtension ext])

/-- `self.my_df.drop(columns=label, inplace=True)`: remove every column
labelled `label` together with its cells in each row. -/
def DataFrame.dropColumn (df : DataFrame) (label : String) : DataFrame :=
  ⟨df.cols.filter (fun c => c ≠ label),
   df.index,
   df.rows.map (fun r => ((df.cols.zip r).filter (fun p => p.1 ≠ label)).map (fun p => p.2))⟩

/-- `MyPreprocessor.drop_cols` (lines 128-147): for each requested
label in order, drop the column when the label exists, else log an
error for that label. -/
def drop_cols (st : PState) (labels : List String) : PState × List PLog :=
  labels.foldl
    (fun acc label =>
      if label ∈ acc.1.my_df.cols then
        ({ acc.1 with my_df := acc.1.my_df.dropColumn label }, acc.2)
      else (acc.1, acc.2 ++ [PLog.errColNonexistent label]))
    (st, [])

/-- `self.my_df.rename(columns={old: rep}, inplace=True)`: every column
labelled `old` is relabelled `rep`; pandas performs no uniqueness check
on the resulting labels. -/
def DataFrame.renameColumn (df : DataFrame) (old rep : String) : DataFrame :=
  { df with cols := df.cols.map (fun c => if c = old then rep else c) }

/-- `MyPreprocessor.rename_cols` (lines 150-169): for each (old, new)
pair in order, rename when the old label exists, else log an error. -/
def rename_cols (st : PState) (labels : List (String × String)) : PState × List PLog :=
  labels.foldl
    (fun acc kv =>
      if kv.1 ∈ acc.1.my_df.cols then
        ({ acc.1 with my_df := acc.1.my_df.renameColumn kv.1 kv.2 }, acc.2)
      else (acc.1, acc.2 ++ [PLog.errColNonexistent kv.1]))
    (st, [])

/-- `self.my_df.drop_duplicates(inplace=True, ignore_index=True)`: keep
the first occurrence of each row (all columns considered, NaN equal to
NaN), then assign a fresh RangeIndex. -/
def DataFrame.drop_duplicates (df : DataFrame) : DataFrame :=
  let rows := pdUnique df.rows
  ⟨df.cols, rangeIndex rows.length, rows⟩

/-- `self.my_df.dropna(inplace=True, ignore_index=True)`: drop every
row with at least one missing value, then assign a fresh RangeIndex. -/
def DataFrame.dropna (df : DataFrame) : DataFrame :=
  let rows := df.rows.filter (fun r => ¬ Val.na ∈ r)
  ⟨df.cols, rangeIndex rows.length, rows⟩

/-- `self.my_df.drop(index=label, inplace=True)`: remove every row
whose label is `label`; the index is not reset. -/
def DataFrame.dropIndexLabel (df : DataFrame) (label : Int) : DataFrame :=
  let pairs := (df.index.zip df.rows).filter (fun p => p.1 ≠ label)
  ⟨df.cols, pairs.map (fun p => p.1), pairs.map (fun p => p.2)⟩

/-- The `dupl` block of `drop_rows` (lines 196-201): deduplicate, log
the delta `self.my_df_rows - self.my_df.shape[0]` computed from the
stored counter, then execute `self.my_df_rows -= self.my_df_rows -
self.my_df.shape[0]`. -/
def druplPhase (s : PState × List PLog) : PState × List PLog :=
  let df := s.1.my_df.drop_duplicates
  let delta : Int := s.1.my_df_rows - df.rows.length
  (PState.mk df (s.1.my_df_rows - delta), s.2 ++ [PLog.infoDroppedRows delta])

/-- The `na` block of `drop_rows` (lines 204-209): drop rows with
missing values, log the counter-based delta, resynchronize the
counter. -/
def dropnaPhase (s : PState × List PLog) : PState × List PLog :=
  let df := s.1.my_df.dropna
  let delta : Int := s.1.my_df_rows - df.rows.length
  (PState.mk df (s.1.my_df_rows - delta), s.2 ++ [PLog.infoDroppedRows delta])

/-- The `labels` block of `drop_rows` (lines 211-226): for each label
in order drop the row when it exists, else log an error; after the
loop, log the counter-based delta once and resynchronize the
counter. -/
def labelsPhase (labels : List Int) (s : PState × List PLog) : PState × List PLog :=
  let dfErrs := labels.foldl
    (fun acc label =>
      if label ∈ acc.1.index then (acc.1.dropIndexLabel label, acc.2)
      else (acc.1, acc.2 ++ [PLog.errRowNonexistent label]))
    (s.1.my_df, [])
  let delta : Int := s.1.my_df_rows - dfErrs.1.rows.length
  (PState.mk dfErrs.1 (s.1.my_df_rows - delta),
   s.2 ++ dfErrs.2 ++ [PLog.infoDroppedRows delta])

/-- `MyPreprocessor.drop_rows` (lines 172-226). Each block runs when
its argument is truthy (`labels` defaults to `False`; an empty list is
equally falsy, so absence is modelled as `[]`); the blocks run in the
source's fixed order on the accumulated state and log. -/
def drop_rows (st : PState) (dupl na : Bool) (labels : List Int) : PState × List PLog :=
  let s1 := if dupl then druplPhase (st, []) else (st, [])
  let s2 := if na then dropnaPhase s1 else s1
  if labels ≠ [] then labelsPhase labels s2 else s2

/-- The loop of the `auto` branch of `recode` (lines 261-266): with
`my_counter` currently `k`, assign each remaining distinct value the
next integer in order. -/
def autoDictFrom (k : Int) : List Val → List (Val × Val)
  | [] => []
  | v :: vs => (v, Val.i k) :: autoDictFrom (k + 1) vs

/-- The `auto` coding plan `auto_dict`: iterate over
`pd.unique(self.my_df[col_name])` with `my_counter` starting at 0. -/
def autoDict (values : List Val) : List (Val × Val) :=
  autoDictFrom 0 (pdUnique values)

/-- `MyPreprocessor.recode` (lines 229-294). `auto` defaults to
`False`; `customized` defaults to `False` and an empty dict is equally
falsy, so absence is modelled as `[]`. The customized branch builds
`corr_dict` from the entries whose key occurs among the column's unique
values, logging an error for each other entry, then applies one dict
replacement. -/
def recode (st : PState) (col_name : String) (auto : Bool) (customized : List (Val × Val)) : PState × List PLog :=
  if col_name ∈ st.my_df.cols then
    if customized = [] ∧ auto = false then (st, [PLog.errNoRecodeScheme])
    else if customized ≠ [] ∧ auto = true then (st, [PLog.errTooManyRecodeSchemes])
    else
      let st1 :=
        if auto then
          { st with my_df := st.my_df.replaceCol col_name (autoDict (st.my_df.colValues col_name)) }
        else st
      if customized ≠ [] then
        let uniques := pdUnique (st1.my_df.colValues col_name)
        let cdErrs := customized.foldl
          (fun acc kv =>
            if kv.1 ∈ uniques then (acc.1 ++ [kv], acc.2)
            else (acc.1, acc.2 ++ [PLog.errValNonexistent kv.1]))
          (([] : List (Val × Val)), ([] : List PLog))
        ({ st1 with my_df := st1.my_df.replaceCol col_name cdErrs.1 }, cdErrs.2)
      else (st1, [])
  else (st, [PLog.errColNonexistent col_name])

/-! ## Helper lemmas -/

theorem lookupVal_cons (a w : Val) (m : List (Val × Val)) (v : Val) :
    lookupVal ((a, w) :: m) v = if a = v then w else lookupVal m v := by
  by_cases h : a = v <;> simp [lookupVal, List.find?_cons, h]

theorem lookupVal_of_not_mem (m : List (Val × Val)) (v : Val)
    (h : v ∉ m.map Prod.fst) : lookupVal m v = v := by
  induction m with
  | nil => rfl
  | cons kv m ih =>
    rcases kv with ⟨a, w⟩
    simp only [List.map_cons, List.mem_cons] at h
    push_neg at h
    rw [lookupVal_cons, if_neg (fun hh => h.1 hh.symm)]
    exact ih h.2

theorem lookupVal_of_mem_nodup (m : List (Val × Val)) (k w : Val)
    (hnd : (m.map Prod.fst).Nodup) (hmem : (k, w) ∈ m) : lookupVal m k = w := by
  induction m with
  | nil => simp at hmem
  | cons kv m ih =>
    rcases kv with ⟨a, u⟩
    simp only [List.map_cons, List.nodup_cons] at hnd
    rw [lookupVal_cons]
    rcases List.mem_cons.1 hmem with h | h
    · obtain ⟨rfl, rfl⟩ := Prod.mk.injEq .. ▸ h
      · simp
    · have hk : a ≠ k := by
        intro h'
        subst h'
        exact hnd.1 (List.mem_map.2 ⟨(a, w), h, rfl⟩)
      rw [if_neg hk]
      exact ih hnd.2 h

theorem lookupVal_autoDictFrom (u : List Val) (v : Val)
    (hnd : u.Nodup) (hmem : v ∈ u) :
    ∀ k : Int, lookupVal (autoDictFrom k u) v = Val.i (k + Int.ofNat (u.indexOf v)) := by
  induction u with
  | nil => simp at hmem
  | cons a t ih =>
    intro k
    rw [autoDictFrom, lookupVal_cons]
    by_cases hv : a = v
    · subst hv
      rw [if_pos rfl, List.indexOf_cons_self]
      simp
    · rw [if_neg hv]
      have hmem' : v ∈ t := by
        rcases List.mem_cons.1 hmem with h | h
        · exact absurd h.symm hv
        · exact h
      rw [ih (List.nodup_cons.1 hnd).2 hmem' (k + 1), List.indexOf_cons_ne _ hv]
      congr 1
      simp only [Int.ofNat_eq_natCast]
      omega

theorem replaceCol_cols (df : DataFrame) (c : String) (m : List (Val × Val)) :
    (df.replaceCol c m).cols = df.cols := by
  unfold DataFrame.replaceCol
  cases h : df.cols.findIdx? (fun x => x = c) <;> simp

theorem replaceCol_index (df : DataFrame) (c : String) (m : List (Val × Val)) :
    (df.replaceCol c m).index = df.index := by
  unfold DataFrame.replaceCol
  cases h : df.cols.findIdx? (fun x => x = c) <;> simp

theorem replaceCol_colValues (df : DataFrame) (c : String) (m : List (Val × Val))
    (hc : c ∈ df.cols)
    (hwf : ∀ r ∈ df.rows, r.length = df.cols.length) :
    (df.replaceCol c m).colValues c = (df.colValues c).map (lookupVal m) := by
  have hsome : (df.cols.findIdx? (fun x => x = c)).isSome = true := by
    rw [List.findIdx?_isSome, List.any_eq_true]
    exact ⟨c, hc, by simp⟩
  obtain ⟨i, hfind⟩ := Option.isSome_iff_exists.1 hsome
  have hilen : i < df.cols.length := (List.findIdx?_eq_some_iff_getElem.1 hfind).1
  unfold DataFrame.replaceCol DataFrame.colValues
  rw [hfind]
  simp only [hfind, List.map_map]
  refine List.map_congr_left ?_
  intro r hr
  have hlen : r.length = df.cols.length := hwf r hr
  have hir : i < r.length := hlen ▸ hilen
  have hir' : i < (r.mapIdx (fun j v => if j = i then lookupVal m v else v)).length := by
    rw [List.length_mapIdx]
    exact hir
  simp only [Function.comp]
  rw [List.getD_eq_getElem?_getD, List.getElem?_eq_getElem hir',
      List.getD_eq_getElem?_getD, List.getElem?_eq_getElem hir]
  have := List.get_mapIdx r (fun j v => if j = i then lookupVal m v else v) i hir
  simp only [List.get_eq_getElem] at this
  rw [this]
  simp

theorem recode_customized_foldl (uniques : List Val) (m : List (Val × Val)) :
    ∀ acc : List (Val × Val) × List PLog,
    m.foldl
      (fun acc kv =>
        if kv.1 ∈ uniques then (acc.1 ++ [kv], acc.2)
        else (acc.1, acc.2 ++ [PLog.errValNonexistent kv.1]))
      acc
    = (acc.1 ++ m.filter (fun kv => kv.1 ∈ uniques),
       acc.2 ++ (m.filter (fun kv => ¬ kv.1 ∈ uniques)).map
          (fun kv => PLog.errValNonexistent kv.1)) := by
  induction m with
  | nil => intro acc; simp
  | cons kv m ih =>
    intro acc
    by_cases h : kv.1 ∈ uniques <;>
      simp [List.foldl_cons, h, ih, List.filter_cons]

/-- The `auto` branch of `recode` rewrites the selected column by the
first-encounter coding plan: each value becomes the integer position of
its first occurrence among the column's distinct values. -/
theorem recode_auto_colValues (st : PState) (c : String)
    (hc : c ∈ st.my_df.cols)
    (hwf : ∀ r ∈ st.my_df.rows, r.length = st.my_df.cols.length) :
    (recode st c true []).1.my_df.colValues c
      = (st.my_df.colValues c).map
          (fun v => Val.i (Int.ofNat ((pdUnique (st.my_df.colValues c)).indexOf v))) := by
  have hrec : (recode st c true []).1.my_df
      = st.my_df.replaceCol c (autoDict (st.my_df.colValues c)) := by
    simp [recode, hc]
  rw [hrec, replaceCol_colValues _ _ _ hc hwf]
  refine List.map_congr_left ?_
  intro v hv
  have hvmem : v ∈ pdUnique (st.my_df.colValues c) := (mem_pdUnique _ _).2 hv
  rw [autoDict, lookupVal_autoDictFrom _ _ (nodup_pdUnique _) hvmem 0]
  congr 1
  exact Int.zero_add _

/-! ## Claims -/

/-- C1: `recode(col_name=c, auto=True)` on an existing column `c`
replaces the column's values by the integers 0,1,2,… assigned in
first-encounter order of the distinct values, replacing every
occurrence; on column values ["b","a","b","c"] the result is
[0,1,0,2]. The `pdUnique` conjuncts pin down "first-encounter order":
the coding list is duplicate-free, carries exactly the column's values,
and is ordered by position of first occurrence. -/
theorem recode_auto_first_encounter (st : PState) (c : String)
    (hc : c ∈ st.my_df.cols)
    (hwf : ∀ r ∈ st.my_df.rows, r.length = st.my_df.cols.length) :
    ((recode st c true []).1.my_df.colValues c
        = (st.my_df.colValues c).map
            (fun v => Val.i (Int.ofNat ((pdUnique (st.my_df.colValues c)).indexOf v))))
    ∧ (pdUnique (st.my_df.colValues c)).Nodup
    ∧ (∀ v, v ∈ pdUnique (st.my_df.colValues c) ↔ v ∈ st.my_df.colValues c)
    ∧ (pdUnique (st.my_df.colValues c)).Pairwise
        (fun a b => (st.my_df.colValues c).findIdx (fun x => x = a)
          < (st.my_df.colValues c).findIdx (fun x => x = b))
    ∧ (recode ⟨⟨["c"], [0, 1, 2, 3],
          [[Val.s "b"], [Val.s "a"], [Val.s "b"], [Val.s "c"]]⟩, 4⟩ "c" true []).1.my_df.rows
        = [[Val.i 0], [Val.i 1], [Val.i 0], [Val.i 2]] := by
  refine ⟨recode_auto_colValues st c hc hwf, nodup_pdUnique _,
    fun v => mem_pdUnique _ v, pdUnique_pairwise _, by decide⟩

theorem recode_auto_first_encounter_witness :
    (recode ⟨⟨["c"], [0, 1, 2, 3],
        [[Val.s "b"], [Val.s "a"], [Val.s "b"], [Val.s "c"]]⟩, 4⟩ "c" true []).1.my_df.colValues "c"
      = [Val.i 0, Val.i 1, Val.i 0, Val.i 2] :=
  ((recode_auto_first_encounter
      ⟨⟨["c"], [0, 1, 2, 3], [[Val.s "b"], [Val.s "a"], [Val.s "b"], [Val.s "c"]]⟩, 4⟩
      "c" (by decide) (by decide)).1).trans (by decide)

/-- C2: `data_import` returns the parsed JSON body when the stored
status code is 200, and for every other status code logs the status
code and reason phrase as errors and returns None, with no exception
propagating to the caller. -/
theorem data_import_status_dispatch (r : Response) :
    (∀ j, r.status_code = 200 → r.jsonResult = some j →
        data_import r = Except.ok (some j, []))
    ∧ (r.status_code ≠ 200 →
        data_import r = Except.ok (none,
          [ApiLog.statusCode r.status_code, ApiLog.reasonPhrase r.reason])) := by
  constructor
  · intro j h200 hjson
    simp [data_import, tryBlock, h200, hjson]
  · intro hne
    simp [data_import, tryBlock, hne, isInstanceOfException]

theorem data_import_status_dispatch_witness :
    data_import ⟨200, "OK", some (Json.obj [("a", Json.num 1)])⟩
        = Except.ok (some (Json.obj [("a", Json.num 1)]), [])
    ∧ data_import ⟨404, "Not Found", none⟩
        = Except.ok (none, [ApiLog.statusCode 404, ApiLog.reasonPhrase "Not Found"]) :=
  ⟨(data_import_status_dispatch _).1 _ rfl rfl,
   (data_import_status_dispatch _).2 (by decide)⟩

/-- C3 counterexample: on a 200 response whose body fails to parse,
`data_import` does NOT let the parse error propagate — the method
returns normally (`Except.ok`) with value None, because the raised
`JSONDecodeError` is matched by the blanket `except Exception:`
clause. -/
theorem data_import_parse_error_not_propagated :
    data_import ⟨200, "OK", none⟩
      = Except.ok (none, [ApiLog.statusCode 200, ApiLog.reasonPhrase "OK"]) := rfl

/-- C3 (amended): when the status code is 200 and the body fails to
parse as JSON, the parse error receives no handler of its own — the
raised exception is the generic `JSONDecodeError` from the `try`
body — but it is intercepted by the method's blanket
`except Exception:` clause (JSONDecodeError is an Exception instance),
which logs the stored status code and reason phrase and returns None;
nothing propagates to the caller. -/
theorem data_import_parse_error_swallowed (r : Response)
    (h200 : r.status_code = 200) (hbad : r.jsonResult = none) :
    tryBlock r = Except.error PyExc.jsonDecode
    ∧ isInstanceOfException PyExc.jsonDecode = true
    ∧ data_import r = Except.ok (none,
        [ApiLog.statusCode r.status_code, ApiLog.reasonPhrase r.reason]) := by
  have htry : tryBlock r = Except.error PyExc.jsonDecode := by
    simp [tryBlock, h200, hbad]
  refine ⟨htry, rfl, ?_⟩
  simp [data_import, htry, isInstanceOfException]

theorem data_import_parse_error_swallowed_witness :
    data_import ⟨200, "OK", none⟩
      = Except.ok (none, [ApiLog.statusCode 200, ApiLog.reasonPhrase "OK"]) :=
  (data_import_parse_error_swallowed ⟨200, "OK", none⟩ rfl rfl).2.2

/-- C5: supplying neither or both of `dictionary`/`path` to
`create_df`, and supplying neither or both of `auto`/`customized` to
`recode` on an existing column, logs an error and skips the entire
operation: the returned state is exactly the input state. -/
theorem mutual_exclusion_skips_operation (st : PState)
    (d : List (String × List Val)) (p : String) (fs : FS)
    (c : String) (m : List (Val × Val))
    (hd : d ≠ []) (hp : p ≠ "") (hc : c ∈ st.my_df.cols) (hm : m ≠ []) :
    create_df st [] "" fs = (st, [PLog.errNoImportScheme])
    ∧ create_df st d p fs = (st, [PLog.errTooManyImportSchemes])
    ∧ recode st c false [] = (st, [PLog.errNoRecodeScheme])
    ∧ recode st c true m = (st, [PLog.errTooManyRecodeSchemes]) := by
  refine ⟨by simp [create_df], ?_, by simp [recode, hc], ?_⟩
  · simp [create_df, hd, hp]
  · simp [recode, hc, hm]

theorem mutual_exclusion_skips_operation_witness :
    create_df ⟨⟨["c"], [0], [[Val.s "a"]]⟩, 1⟩ [] "" [] =
        (⟨⟨["c"], [0], [[Val.s "a"]]⟩, 1⟩, [PLog.errNoImportScheme])
    ∧ create_df ⟨⟨["c"], [0], [[Val.s "a"]]⟩, 1⟩ [("x", [Val.i 1])] "a.csv" [] =
        (⟨⟨["c"], [0], [[Val.s "a"]]⟩, 1⟩, [PLog.errTooManyImportSchemes])
    ∧ recode ⟨⟨["c"], [0], [[Val.s "a"]]⟩, 1⟩ "c" false [] =
        (⟨⟨["c"], [0], [[Val.s "a"]]⟩, 1⟩, [PLog.errNoRecodeScheme])
    ∧ recode ⟨⟨["c"], [0], [[Val.s "a"]]⟩, 1⟩ "c" true [(Val.s "a", Val.s "b")] =
        (⟨⟨["c"], [0], [[Val.s "a"]]⟩, 1⟩, [PLog.errTooManyRecodeSchemes]) :=
  mutual_exclusion_skips_operation ⟨⟨["c"], [0], [[Val.s "a"]]⟩, 1⟩
    [("x", [Val.i 1])] "a.csv" [] "c" [(Val.s "a", Val.s "b")]
    (by decide) (by decide) (by decide) (by decide)

/-- C10: argument presence is decided by truthiness, not by whether the
argument was passed: `create_df` with an empty dictionary and empty
path is treated as no scheme specified (error logged, table unchanged),
and `recode(auto=True, customized={})` on an existing column is not
flagged as a mutual-exclusion violation — no error is logged and the
auto recoding is performed. -/
theorem truthiness_decides_argument_presence (st : PState) (fs : FS) (c : String)
    (hc : c ∈ st.my_df.cols)
    (hwf : ∀ r ∈ st.my_df.rows, r.length = st.my_df.cols.length) :
    create_df st [] "" fs = (st, [PLog.errNoImportScheme])
    ∧ (recode st c true []).2 = []
    ∧ (recode st c true []).1.my_df.colValues c
        = (st.my_df.colValues c).map
            (fun v => Val.i (Int.ofNat ((pdUnique (st.my_df.colValues c)).indexOf v))) := by
  refine ⟨by simp [create_df], ?_, recode_auto_colValues st c hc hwf⟩
  simp [recode, hc]

theorem truthiness_decides_argument_presence_witness :
    create_df ⟨⟨["c"], [0, 1], [[Val.s "b"], [Val.s "a"]]⟩, 2⟩ [] "" [] =
        (⟨⟨["c"], [0, 1], [[Val.s "b"], [Val.s "a"]]⟩, 2⟩, [PLog.errNoImportScheme])
    ∧ (recode ⟨⟨["c"], [0, 1], [[Val.s "b"], [Val.s "a"]]⟩, 2⟩ "c" true []).2 = []
    ∧ (recode ⟨⟨["c"], [0, 1], [[Val.s "b"], [Val.s "a"]]⟩, 2⟩ "c" true []).1.my_df.colValues "c"
        = [Val.i 0, Val.i 1] := by
  have h := truthiness_decides_argument_presence
    ⟨⟨["c"], [0, 1], [[Val.s "b"], [Val.s "a"]]⟩, 2⟩ [] "c" (by decide) (by decide)
  exact ⟨h.1, h.2.1, (h.2.2).trans (by decide)⟩

/-- C6: `drop_rows(dupl=True)` drops duplicate rows considering all
columns, keeps the first occurrence of each duplicate group (the
remaining rows are duplicate-free, form a subsequence of the original
rows ordered by position of first occurrence, and carry exactly the
original row values), and re-indexes the remaining rows contiguously
from zero; on rows [[1,2],[1,2],[3,4]] the result is exactly
[[1,2],[3,4]] with row labels 0 and 1. -/
theorem drop_rows_dupl_spec (st : PState) :
    ((drop_rows st true false []).1.my_df.cols = st.my_df.cols)
    ∧ ((drop_rows st true false []).1.my_df.rows.Nodup)
    ∧ ((drop_rows st true false []).1.my_df.rows.Sublist st.my_df.rows)
    ∧ (∀ row, row ∈ (drop_rows st true false []).1.my_df.rows ↔ row ∈ st.my_df.rows)
    ∧ ((drop_rows st true false []).1.my_df.rows.Pairwise
        (fun a b => st.my_df.rows.findIdx (fun x => x = a)
          < st.my_df.rows.findIdx (fun x => x = b)))
    ∧ ((drop_rows st true false []).1.my_df.index
        = rangeIndex (drop_rows st true false []).1.my_df.rows.length)
    ∧ ((drop_rows ⟨⟨["u", "v"], [0, 1, 2],
          [[Val.i 1, Val.i 2], [Val.i 1, Val.i 2], [Val.i 3, Val.i 4]]⟩, 3⟩ true false []).1.my_df
        = ⟨["u", "v"], [0, 1], [[Val.i 1, Val.i 2], [Val.i 3, Val.i 4]]⟩) := by
  have hdf : (drop_rows st true false []).1.my_df = st.my_df.drop_duplicates := by
    simp [drop_rows, druplPhase]
  rw [hdf]
  exact ⟨rfl, nodup_pdUnique _, pdUnique_sublist _, fun row => mem_pdUnique _ row,
    pdUnique_pairwise _, rfl, by decide⟩

/-- C7: `recode(col_name=c, customized=m)` on an existing column with a
non-empty mapping applies every entry whose key occurs among the
column's values (each occurrence of the key becomes the mapped value),
leaves values that are no key of the mapping unchanged, logs an error
for every entry whose key does not occur while the rest of the mapping
is still applied, and raises no exception — the log events are exactly
the per-entry error lines. -/
theorem recode_customized_spec (st : PState) (c : String) (m : List (Val × Val))
    (hc : c ∈ st.my_df.cols) (hm : m ≠ [])
    (hkeys : (m.map Prod.fst).Nodup)
    (hwf : ∀ r ∈ st.my_df.rows, r.length = st.my_df.cols.length) :
    (∀ (k w : Val) (i : Nat), (k, w) ∈ m → k ∈ st.my_df.colValues c →
        (st.my_df.colValues c)[i]? = some k →
        ((recode st c false m).1.my_df.colValues c)[i]? = some w)
    ∧ (∀ (i : Nat) (v : Val), (st.my_df.colValues c)[i]? = some v → v ∉ m.map Prod.fst →
        ((recode st c false m).1.my_df.colValues c)[i]? = some v)
    ∧ (∀ k w, (k, w) ∈ m → k ∉ st.my_df.colValues c →
        PLog.errValNonexistent k ∈ (recode st c false m).2)
    ∧ (∀ e ∈ (recode st c false m).2,
        ∃ k, e = PLog.errValNonexistent k ∧ k ∈ m.map Prod.fst
          ∧ k ∉ st.my_df.colValues c) := by
  have hres : recode st c false m
      = (PState.mk
          (st.my_df.replaceCol c
            (m.filter (fun kv => kv.1 ∈ pdUnique (st.my_df.colValues c))))
          st.my_df_rows,
         (m.filter (fun kv => ¬ kv.1 ∈ pdUnique (st.my_df.colValues c))).map
            (fun kv => PLog.errValNonexistent kv.1)) := by
    simp [recode, hc, hm, recode_customized_foldl]
  have hcol : (recode st c false m).1.my_df.colValues c
      = (st.my_df.colValues c).map
          (lookupVal (m.filter (fun kv => kv.1 ∈ pdUnique (st.my_df.colValues c)))) := by
    rw [hres]
    exact replaceCol_colValues _ _ _ hc hwf
  have hsub : ((m.filter (fun kv => kv.1 ∈ pdUnique (st.my_df.colValues c))).map
      Prod.fst).Sublist (m.map Prod.fst) :=
    (List.filter_sublist m).map Prod.fst
  refine ⟨?_, ?_, ?_, ?_⟩
  · intro k w i hkm hkvs hget
    rw [hcol, List.getElem?_map, hget, Option.map_some']
    congr 1
    refine lookupVal_of_mem_nodup _ k w (hkeys.sublist hsub) ?_
    refine List.mem_filter.2 ⟨hkm, ?_⟩
    simp [mem_pdUnique, hkvs]
  · intro i v hget hvm
    rw [hcol, List.getElem?_map, hget, Option.map_some']
    congr 1
    refine lookupVal_of_not_mem _ v ?_
    intro hmem
    rcases List.mem_map.1 hmem with ⟨kv, hkv, rfl⟩
    exact hvm (List.mem_map.2 ⟨kv, (List.mem_filter.1 hkv).1, rfl⟩)
  · intro k w hkm hknot
    rw [hres]
    refine List.mem_map.2 ⟨(k, w), List.mem_filter.2 ⟨hkm, ?_⟩, rfl⟩
    simp [mem_pdUnique, hknot]
  · intro e he
    rw [hres] at he
    rcases List.mem_map.1 he with ⟨kv, hkv, rfl⟩
    rcases List.mem_filter.1 hkv with ⟨hkvm, hpred⟩
    refine ⟨kv.1, rfl, List.mem_map.2 ⟨kv, hkvm, rfl⟩, ?_⟩
    intro hmem
    rw [decide_eq_true_eq] at hpred
    exact hpred ((mem_pdUnique _ _).2 hmem)

theorem recode_customized_spec_witness :
    ((recode ⟨⟨["c"], [0, 1, 2], [[Val.s "a"], [Val.s "q"], [Val.s "a"]]⟩, 3⟩ "c" false
        [(Val.s "a", Val.s "X"), (Val.s "zzz", Val.s "Y")]).1.my_df.colValues "c")[0]?
      = some (Val.s "X")
    ∧ PLog.errValNonexistent (Val.s "zzz")
        ∈ (recode ⟨⟨["c"], [0, 1, 2], [[Val.s "a"], [Val.s "q"], [Val.s "a"]]⟩, 3⟩ "c" false
            [(Val.s "a", Val.s "X"), (Val.s "zzz", Val.s "Y")]).2 := by
  have h := recode_customized_spec
    ⟨⟨["c"], [0, 1, 2], [[Val.s "a"], [Val.s "q"], [Val.s "a"]]⟩, 3⟩ "c"
    [(Val.s "a", Val.s "X"), (Val.s "zzz", Val.s "Y")]
    (by decide) (by decide) (by decide) (by decide)
  exact ⟨h.1 (Val.s "a") (Val.s "X") 0 (by decide) (by decide) (by decide),
         h.2.2.1 (Val.s "zzz") (Val.s "Y") (by decide) (by decide)⟩

/-- The state after `create_df(dictionary={"x":[1,2]})` on a fresh
instance, then `save_df(path="out.csv")`, then
`create_df(path="out.csv")`, with the file system threaded through
explicitly. -/
def roundTripState : PState :=
  (create_df (create_df init [("x", [Val.i 1, Val.i 2])] "" []).1 [] "out.csv"
    (save_df (create_df init [("x", [Val.i 1, Val.i 2])] "" []).1 "out.csv" []).2.1).1

/-- C8: `create_df(dictionary={"x":[1,2]})`, then
`save_df(path="out.csv")`, then `create_df(path="out.csv")` yields a
table containing a column `x` with values [1, 2]; the only further
column is the extra "Unnamed: 0" column carrying the persisted row
index. -/
theorem csv_round_trip :
    "x" ∈ roundTripState.my_df.cols
    ∧ roundTripState.my_df.colValues "x" = [Val.i 1, Val.i 2]
    ∧ roundTripState.my_df.cols = ["Unnamed: 0", "x"]
    ∧ roundTripState.my_df.colValues "Unnamed: 0" = [Val.i 0, Val.i 1] := by
  decide

/-- C9: `drop_rows` re-synchronizes the stored row counter whenever at
least one phase runs (afterwards `my_df_rows` equals the actual row
count); `create_df` never updates `my_df_rows`; the first logged
dropped-rows delta of a `drop_rows` call is computed from the stored —
possibly stale — counter; and concretely, loading two rows into a
fresh instance leaves the counter at 0 while the table has 2 rows, so
the next `drop_rows(dupl=True)` logs the delta -2. -/
theorem my_df_rows_resync (st : PState) (dupl na : Bool) (labels : List Int)
    (hrun : dupl = true ∨ na = true ∨ labels ≠ []) :
    ((drop_rows st dupl na labels).1.my_df_rows
        = ((drop_rows st dupl na labels).1.my_df.rows.length : Int))
    ∧ (∀ d p fs, (create_df st d p fs).1.my_df_rows = st.my_df_rows)
    ∧ (dupl = true →
        (drop_rows st dupl na labels).2.head?
          = some (PLog.infoDroppedRows
              (st.my_df_rows - (st.my_df.drop_duplicates.rows.length : Int))))
    ∧ (dupl = false → na = true →
        (drop_rows st dupl na labels).2.head?
          = some (PLog.infoDroppedRows
              (st.my_df_rows - (st.my_df.dropna.rows.length : Int))))
    ∧ (dupl = false → na = false → labels ≠ [] →
        (drop_rows st dupl na labels).2.getLast?
          = some (PLog.infoDroppedRows
              (st.my_df_rows - ((drop_rows st dupl na labels).1.my_df.rows.length : Int))))
    ∧ ((create_df init [("x", [Val.i 1, Val.i 2])] "" []).1.my_df_rows = 0
        ∧ (create_df init [("x", [Val.i 1, Val.i 2])] "" []).1.my_df.rows.length = 2
        ∧ (drop_rows (create_df init [("x", [Val.i 1, Val.i 2])] "" []).1 true false []).2
            = [PLog.infoDroppedRows (-2)]) := by
  refine ⟨?_, ?_, ?_, ?_, ?_, by decide, by decide, by decide⟩
  · rcases Bool.eq_false_or_eq_true dupl with hd | hd <;>
      rcases Bool.eq_false_or_eq_true na with hn | hn <;>
      by_cases hl : labels = [] <;>
      subst hd <;> subst hn <;>
      simp_all [drop_rows, druplPhase, dropnaPhase, labelsPhase]
  · intro d p fs
    simp only [create_df]
    repeat' split <;> try rfl
  · intro hd
    subst hd
    rcases Bool.eq_false_or_eq_true na with hn | hn <;>
      by_cases hl : labels = [] <;>
      subst hn <;>
      simp_all [drop_rows, druplPhase, dropnaPhase, labelsPhase]
  · intro hd hn
    subst hd
    subst hn
    by_cases hl : labels = [] <;> simp_all [drop_rows, druplPhase, dropnaPhase, labelsPhase]
  · intro hd hn hl
    subst hd
    subst hn
    simp_all [drop_rows, druplPhase, dropnaPhase, labelsPhase, List.getLast?_concat]

theorem my_df_rows_resync_witness :
    (drop_rows (create_df init [("x", [Val.i 1, Val.i 2])] "" []).1 true false []).1.my_df_rows
      = 2 :=
  ((my_df_rows_resync (create_df init [("x", [Val.i 1, Val.i 2])] "" []).1 true false []
      (Or.inl rfl)).1).trans (by decide)

/-! ## Label uniqueness (claim C4) -/

theorem rangeIndex_nodup (n : Nat) : (rangeIndex n).Nodup := by
  refine List.Nodup.map ?_ (List.nodup_range _)
  intro a b h
  exact Int.ofNat.inj h

theorem zip_map_fst_sublist {α β : Type} (l : List α) (l' : List β) :
    ((l.zip l').map Prod.fst).Sublist l := by
  induction l generalizing l' with
  | nil => simp
  | cons a t ih =>
    cases l' with
    | nil => simp
    | cons b t' =>
      simp only [List.zip_cons_cons, List.map_cons]
      exact List.Sublist.cons₂ a (ih t')

theorem fsRead_mem (fs : FS) (p : String) (f : CsvFile)
    (h : fsRead fs p = some f) : f ∈ fs.map Prod.snd := by
  unfold fsRead at h
  rcases Option.map_eq_some'.1 h with ⟨e, he, rfl⟩
  exact List.mem_map.2 ⟨e, List.mem_of_find?_eq_some he, rfl⟩

theorem foldl_preserves {α β : Type} (P : α → Prop) (f : α → β → α)
    (hf : ∀ a b, P a → P (f a b)) :
    ∀ (l : List β) (a : α), P a → P (l.foldl f a) := by
  intro l
  induction l with
  | nil => intro a h; exact h
  | cons b t ih =>
    intro a h
    rw [List.foldl_cons]
    exact ih _ (hf a b h)

/-- `df.drop(index=label)` keeps the row labels a sublist of the
original index, so distinct row labels stay distinct; nothing is
assumed about the column labels. -/
theorem dropIndexLabel_index_nodup (df : DataFrame) (label : Int)
    (h : df.index.Nodup) : (df.dropIndexLabel label).index.Nodup := by
  have hsub : (((df.index.zip df.rows).filter (fun p => p.1 ≠ label)).map
      Prod.fst).Sublist df.index :=
    (((df.index.zip df.rows).filter_sublist).map Prod.fst).trans
      (zip_map_fst_sublist _ _)
  exact h.sublist hsub

/-- `create_df` either keeps the table, builds it from the dictionary,
or parses a file found on disk. -/
theorem create_df_df_cases (st : PState) (d : List (String × List Val))
    (p : String) (fs : FS) :
    (create_df st d p fs).1.my_df = st.my_df
    ∨ (create_df st d p fs).1.my_df = fromDict d
    ∨ (∃ f, fsRead fs p = some f ∧ (create_df st d p fs).1.my_df = read_csv f) := by
  unfold create_df
  by_cases h1 : d = [] ∧ p = ""
  · rw [if_pos h1]
    exact Or.inl rfl
  rw [if_neg h1]
  by_cases h2 : d ≠ [] ∧ p ≠ ""
  · rw [if_pos h2]
    exact Or.inl rfl
  rw [if_neg h2]
  by_cases hp : p = ""
  · simp only [hp, ne_eq, not_true_eq_false, if_false]
    by_cases hd0 : d = []
    · simp [hd0]
    · simp [hd0]
  · have hd0 : d = [] := by
      by_contra hd
      exact h2 ⟨hd, hp⟩
    simp only [hp, ne_eq, not_false_eq_true, if_true]
    by_cases hcsv : fileExtension p = "csv"
    · rw [if_pos hcsv]
      cases hread : fsRead fs p with
      | none => simp [hd0]
      | some f => exact Or.inr (Or.inr ⟨f, rfl, rfl⟩)
    rw [if_neg hcsv]
    by_cases hxlsx : fileExtension p = "xlsx"
    · rw [if_pos hxlsx]
      cases hread : fsRead fs p with
      | none => simp [hd0]
      | some f => exact Or.inr (Or.inr ⟨f, rfl, rfl⟩)
    · rw [if_neg hxlsx]
      simp [hd0]

/-- Every `create_df` outcome carries duplicate-free row labels: either
the index is untouched or it is a fresh RangeIndex. No assumption on
the column labels is needed. -/
theorem create_df_index_nodup (st : PState) (d : List (String × List Val))
    (p : String) (fs : FS) (h : st.my_df.index.Nodup) :
    (create_df st d p fs).1.my_df.index.Nodup := by
  rcases create_df_df_cases st d p fs with hcase | hcase | ⟨f, _, hcase⟩ <;> rw [hcase]
  · exact h
  · exact rangeIndex_nodup _
  · exact rangeIndex_nodup _

theorem create_df_cols_nodup (st : PState) (d : List (String × List Val))
    (p : String) (fs : FS) (h : st.my_df.cols.Nodup)
    (hd : (d.map Prod.fst).Nodup)
    (hfs : ∀ f ∈ fs.map Prod.snd, (read_csv f).cols.Nodup) :
    (create_df st d p fs).1.my_df.cols.Nodup := by
  rcases create_df_df_cases st d p fs with hcase | hcase | ⟨f, hread, hcase⟩ <;> rw [hcase]
  · exact h
  · exact hd
  · exact hfs f (fsRead_mem fs p f hread)

/-- `save_df` never assigns `my_df` or `my_df_rows`: the instance state
comes back unchanged on every branch. -/
theorem save_df_state_eq (st : PState) (p : String) (fs : FS) :
    (save_df st p fs).1 = st := by
  unfold save_df
  by_cases hcsv : fileExtension p = "csv"
  · rw [if_pos hcsv]
  · rw [if_neg hcsv]
    by_cases hxlsx : fileExtension p = "xlsx"
    · rw [if_pos hxlsx]
    · rw [if_neg hxlsx]

/-- `drop_cols` never touches the row labels. -/
theorem drop_cols_index_eq (st : PState) (ls : List String) :
    (drop_cols st ls).1.my_df.index = st.my_df.index := by
  unfold drop_cols
  refine foldl_preserves
    (fun (acc : PState × List PLog) => acc.1.my_df.index = st.my_df.index)
    _ ?_ ls (st, []) rfl
  intro acc label hacc
  by_cases hx : label ∈ acc.1.my_df.cols
  · rw [if_pos hx]
    exact hacc
  · rw [if_neg hx]
    exact hacc

theorem drop_cols_cols_nodup (st : PState) (ls : List String)
    (h : st.my_df.cols.Nodup) : (drop_cols st ls).1.my_df.cols.Nodup := by
  unfold drop_cols
  refine foldl_preserves
    (fun (acc : PState × List PLog) => acc.1.my_df.cols.Nodup)
    _ ?_ ls (st, []) h
  intro acc label hacc
  by_cases hx : label ∈ acc.1.my_df.cols
  · rw [if_pos hx]
    exact hacc.filter _
  · rw [if_neg hx]
    exact hacc

/-- `rename_cols` only relabels columns; the row labels are untouched,
so their distinctness is preserved even by a duplicating rename. -/
theorem rename_cols_index_nodup (st : PState) (ls : List (String × String))
    (h : st.my_df.index.Nodup) : (rename_cols st ls).1.my_df.index.Nodup := by
  unfold rename_cols
  refine foldl_preserves
    (fun (acc : PState × List PLog) => acc.1.my_df.index.Nodup)
    _ ?_ ls (st, []) h
  intro acc kv hacc
  by_cases hx : kv.1 ∈ acc.1.my_df.cols
  · rw [if_pos hx]
    exact hacc
  · rw [if_neg hx]
    exact hacc

/-- The labels block of `drop_rows` preserves duplicate-free row
labels (each drop keeps the index a sublist of itself). -/
theorem labelsPhase_index_nodup (labels : List Int) (s : PState × List PLog)
    (hs : s.1.my_df.index.Nodup) :
    (labelsPhase labels s).1.my_df.index.Nodup := by
  unfold labelsPhase
  refine foldl_preserves
    (fun (acc : DataFrame × List PLog) => acc.1.index.Nodup)
    _ ?_ labels (s.1.my_df, []) hs
  intro acc label hacc
  by_cases hx : label ∈ acc.1.index
  · rw [if_pos hx]
    exact dropIndexLabel_index_nodup _ _ hacc
  · rw [if_neg hx]
    exact hacc

/-- Every `drop_rows` outcome carries duplicate-free row labels: the
dupl and na blocks install a fresh RangeIndex and the labels block only
removes entries. No assumption on the column labels is needed. -/
theorem drop_rows_index_nodup (st : PState) (dupl na : Bool) (labels : List Int)
    (h : st.my_df.index.Nodup) :
    (drop_rows st dupl na labels).1.my_df.index.Nodup := by
  have h1 : (if dupl then druplPhase (st, []) else (st, [])).1.my_df.index.Nodup := by
    cases dupl with
    | false => exact h
    | true => exact rangeIndex_nodup _
  have h2 : (if na then dropnaPhase (if dupl then druplPhase (st, []) else (st, []))
      else (if dupl then druplPhase (st, []) else (st, []))).1.my_df.index.Nodup := by
    cases na with
    | false => exact h1
    | true => exact rangeIndex_nodup _
  unfold drop_rows
  by_cases hl : labels = []
  · simp only [hl, ne_eq, not_true_eq_false, if_false]
    exact h2
  · simp only [hl, ne_eq, not_false_eq_true, if_true]
    exact labelsPhase_index_nodup _ _ h2

/-- `drop_rows` never changes the column labels. -/
theorem drop_rows_cols_eq (st : PState) (dupl na : Bool) (labels : List Int) :
    (drop_rows st dupl na labels).1.my_df.cols = st.my_df.cols := by
  have hfold : ∀ (df : DataFrame),
      ((labels.foldl (fun acc label =>
          if label ∈ acc.1.index then (acc.1.dropIndexLabel label, acc.2)
          else (acc.1, acc.2 ++ [PLog.errRowNonexistent label]))
        (df, ([] : List PLog))).1).cols = df.cols := by
    intro df
    refine foldl_preserves
      (fun (acc : DataFrame × List PLog) => acc.1.cols = df.cols)
      _ ?_ labels (df, []) rfl
    intro acc label hacc
    by_cases hx : label ∈ acc.1.index
    · rw [if_pos hx]
      exact hacc
    · rw [if_neg hx]
      exact hacc
  have h1 : (if dupl then druplPhase (st, []) else (st, [])).1.my_df.cols
      = st.my_df.cols := by
    cases dupl with
    | false => rfl
    | true => rfl
  have h2 : (if na then dropnaPhase (if dupl then druplPhase (st, []) else (st, []))
      else (if dupl then druplPhase (st, []) else (st, []))).1.my_df.cols
      = st.my_df.cols := by
    cases na with
    | false => exact h1
    | true => exact h1
  unfold drop_rows
  by_cases hl : labels = []
  · simp only [hl, ne_eq, not_true_eq_false, if_false]
    exact h2
  · simp only [hl, ne_eq, not_false_eq_true, if_true]
    exact (hfold _).trans h2

theorem recode_preserves_labels (st : PState) (c : String) (a : Bool)
    (m : List (Val × Val)) :
    ((recode st c a m).1.my_df.cols = st.my_df.cols)
    ∧ ((recode st c a m).1.my_df.index = st.my_df.index) := by
  unfold recode
  by_cases hc : c ∈ st.my_df.cols
  · rw [if_pos hc]
    by_cases e1 : m = [] ∧ a = false
    · rw [if_pos e1]
      exact ⟨rfl, rfl⟩
    rw [if_neg e1]
    by_cases e2 : m ≠ [] ∧ a = true
    · rw [if_pos e2]
      exact ⟨rfl, rfl⟩
    rw [if_neg e2]
    have hst1 : ((if a then
        { st with my_df := st.my_df.replaceCol c (autoDict (st.my_df.colValues c)) }
        else st).my_df.cols = st.my_df.cols)
        ∧ ((if a then
        { st with my_df := st.my_df.replaceCol c (autoDict (st.my_df.colValues c)) }
        else st).my_df.index = st.my_df.index) := by
      cases a with
      | false => exact ⟨rfl, rfl⟩
      | true => exact ⟨replaceCol_cols _ _ _, replaceCol_index _ _ _⟩
    by_cases hm : m = []
    · simp only [hm, ne_eq, not_true_eq_false, if_false]
      exact hst1
    · simp only [hm, ne_eq, not_false_eq_true, if_true]
      refine ⟨(replaceCol_cols _ _ _).trans hst1.1, (replaceCol_index _ _ _).trans hst1.2⟩
  · rw [if_neg hc]
    exact ⟨rfl, rfl⟩

/-- C4 counterexample: a state reachable through the public operations
(`create_df` from a two-column dict, then `rename_cols` mapping "a" to
the existing label "b") whose column labels are NOT pairwise distinct —
pandas' `rename` performs no uniqueness check. -/
theorem rename_cols_breaks_column_uniqueness :
    (rename_cols (create_df init [("a", [Val.i 1]), ("b", [Val.i 2])] "" []).1
        [("a", "b")]).1.my_df.cols = ["b", "b"]
    ∧ ¬ (rename_cols (create_df init [("a", [Val.i 1]), ("b", [Val.i 2])] "" []).1
        [("a", "b")]).1.my_df.cols.Nodup := by
  decide

/-- C4 (amended): the initial table has distinct column and row labels;
every public operation preserves distinctness of the row labels
assuming nothing about the column labels, so the row labels are
pairwise distinct in every reachable state — including the states with
duplicate column labels that a rename can produce; and every operation
except `rename_cols` also preserves distinctness of the column labels
(for `create_df`, granted that the dict keys are distinct — a Python
dict guarantees this — and that the parsed headers of the files read
are duplicate-free, which pandas' duplicate-header mangling guarantees
but this model does not re-implement). `rename_cols` alone can produce
duplicate column labels, as the counterexample shows. -/
theorem ops_preserve_unique_labels :
    (init.my_df.cols.Nodup ∧ init.my_df.index.Nodup)
    ∧ (∀ st d p fs, st.my_df.index.Nodup →
        (create_df st d p fs).1.my_df.index.Nodup)
    ∧ (∀ st p fs, st.my_df.index.Nodup → (save_df st p fs).1.my_df.index.Nodup)
    ∧ (∀ st ls, st.my_df.index.Nodup → (drop_cols st ls).1.my_df.index.Nodup)
    ∧ (∀ st ls, st.my_df.index.Nodup → (rename_cols st ls).1.my_df.index.Nodup)
    ∧ (∀ st dupl na ls, st.my_df.index.Nodup →
        (drop_rows st dupl na ls).1.my_df.index.Nodup)
    ∧ (∀ st c a m, st.my_df.index.Nodup → (recode st c a m).1.my_df.index.Nodup)
    ∧ (∀ st d p fs, st.my_df.cols.Nodup → (d.map Prod.fst).Nodup →
        (∀ f ∈ fs.map Prod.snd, (read_csv f).cols.Nodup) →
        (create_df st d p fs).1.my_df.cols.Nodup)
    ∧ (∀ st p fs, st.my_df.cols.Nodup → (save_df st p fs).1.my_df.cols.Nodup)
    ∧ (∀ st ls, st.my_df.cols.Nodup → (drop_cols st ls).1.my_df.cols.Nodup)
    ∧ (∀ st dupl na ls, st.my_df.cols.Nodup →
        (drop_rows st dupl na ls).1.my_df.cols.Nodup)
    ∧ (∀ st c a m, st.my_df.cols.Nodup → (recode st c a m).1.my_df.cols.Nodup) := by
  refine ⟨⟨List.nodup_nil, List.nodup_nil⟩,
    create_df_index_nodup, ?_, ?_, rename_cols_index_nodup, drop_rows_index_nodup,
    ?_, create_df_cols_nodup, ?_, drop_cols_cols_nodup, ?_, ?_⟩
  · intro st p fs h
    rw [save_df_state_eq]
    exact h
  · intro st ls h
    rw [drop_cols_index_eq]
    exact h
  · intro st c a m h
    rw [(recode_preserves_labels st c a m).2]
    exact h
  · intro st p fs h
    rw [save_df_state_eq]
    exact h
  · intro st dupl na ls h
    rw [drop_rows_cols_eq]
    exact h
  · intro st c a m h
    rw [(recode_preserves_labels st c a m).1]
    exact h

theorem ops_preserve_unique_labels_witness :
    (drop_rows (rename_cols (create_df init [("a", [Val.i 1]), ("b", [Val.i 2])] "" []).1
        [("a", "b")]).1 true false []).1.my_df.index.Nodup
    ∧ (create_df init [("a", [Val.i 1]), ("b", [Val.i 2])] "" []).1.my_df.cols.Nodup :=
  ⟨ops_preserve_unique_labels.2.2.2.2.2.1
      (rename_cols (create_df init [("a", [Val.i 1]), ("b", [Val.i 2])] "" []).1
        [("a", "b")]).1 true false [] (by decide),
   ops_preserve_unique_labels.2.2.2.2.2.2.2.1
      init [("a", [Val.i 1]), ("b", [Val.i 2])] "" []
      (by decide) (by decide) (by decide)⟩

end MyProjects
